import Mathlib

/-!
Verification of the automi stream-pipeline library (shallow embedding).

Items flowing through a pipeline are Go `interface{}` values; we model the
shapes the claims need: the untyped nil, integers, strings, rationals
(exact stand-ins for Go float64), `api.StreamError` values (carrying their
message), Go arrays/slices, Go maps (with their iteration order made
explicit as a list of entries), and `tuple.KV` pairs.

Channels are modelled by the finite sequence of values they deliver before
closing; a bounded channel's identity and capacity are kept as a `Chan`
record on the operator structs.  Cancellation (`ctx.Done()`) is modelled
by an `Option Nat` schedule: `none` means the context is never done during
the run, `some k` means the select statement observes `Done` after exactly
`k` of its productive operations (receives for the binary operator and the
null collector, sends for the stream operator) have fired.
-/

inductive Value where
  | vnil  : Value
  | vint  : Int → Value
  | vstr  : String → Value
  | vrat  : ℚ → Value
  | verr  : String → Value
  | varr  : List Value → Value
  | vmap  : List (Value × Value) → Value
  | vkv   : Value → Value → Value
  deriving Repr

/-- Decrement a cancellation budget by one productive select operation. -/
def decr : Option Nat → Option Nat
  | none => none
  | some n => some (n - 1)

/-- A bounded Go channel; only its capacity is observable on the struct. -/
structure Chan where
  capacity : Nat
  deriving Repr, DecidableEq

/-- Outcome of calling `Exec` (or of the spawned goroutine having run):
the synchronous error returned by `Exec`, the items sent on the output
channel, whether the output channel was closed, and the `StreamError`
messages reported through the error function. -/
structure ExecOutcome where
  execError : Option String
  emitted : List Value
  closed : Bool
  errorsReported : List String
  deriving Repr

/-- Go `api.BinOperation`: the binary operation of a Reduce/Accumulate
stage, `Apply(ctx, state, item) → state` (the context argument is only
threaded through, so it is dropped here). -/
def BinOperation : Type := Value → Value → Value

/-- Go struct `BinaryOperator` (operators/binary): operation, accumulator
state, concurrency level, input channel, output channel.  The input
channel is `none` until `SetInput`, and afterwards carries the finite
sequence of items it will deliver before closing. -/
structure BinaryOperator where
  op : Option BinOperation
  state : Value
  concurrency : Int
  input : Option (List Value)
  output : Option Chan

/-- `binary.New`: concurrency starts at 1 and the output channel is
allocated with capacity 1024; the other fields keep Go's zero values. -/
def BinaryOperator.New : BinaryOperator :=
  { op := none
    state := Value.vnil
    concurrency := 1
    input := none
    output := some { capacity := 1024 } }

/-- `BinaryOperator.SetOperation`. -/
def BinaryOperator.SetOperation (o : BinaryOperator) (f : BinOperation) :
    BinaryOperator :=
  { o with op := some f }

/-- `BinaryOperator.SetInitialState`. -/
def BinaryOperator.SetInitialState (o : BinaryOperator) (v : Value) :
    BinaryOperator :=
  { o with state := v }

/-- `BinaryOperator.SetConcurrency`: store the argument, then clamp
anything below 1 up to 1. -/
def BinaryOperator.SetConcurrency (o : BinaryOperator) (c : Int) :
    BinaryOperator :=
  { o with concurrency := if c < 1 then 1 else c }

/-- `BinaryOperator.SetInput`. -/
def BinaryOperator.SetInput (o : BinaryOperator) (xs : List Value) :
    BinaryOperator :=
  { o with input := some xs }

/-- The select loop of `BinaryOperator.doOp`, for a non-nil operation.
Each iteration either receives the next item (assigning
`o.state = o.op.Apply(exeCtx, o.state, item)` and, when the new state is a
`StreamError`, reporting it through the error function before the
`continue`), observes the input closed, or observes `exeCtx.Done()` once
the cancellation budget is exhausted.  Returns the state at exit paired
with the reported error messages in order. -/
def BinaryOperator.doOp (f : BinOperation) :
    Value → List Value → Option Nat → Value × List String
  | s, [], _ => (s, [])
  | s, _ :: _, some 0 => (s, [])
  | s, x :: xs, fuel =>
    let s2 := f s x
    let r := BinaryOperator.doOp f s2 xs (decr fuel)
    match s2 with
    | Value.verr m => (r.1, m :: r.2)
    | _ => r

/-- `BinaryOperator.Exec`: fails synchronously when no input channel is
set (no goroutine starts, nothing is emitted, output stays open).
Otherwise the goroutine runs `doOp` — which returns immediately when the
operation is nil — and its deferred function then sends the current state
on the output channel (capacity 1024, so the send never blocks here) and
closes it. -/
def BinaryOperator.Exec (o : BinaryOperator) (fuel : Option Nat) :
    ExecOutcome :=
  match o.input with
  | none =>
    { execError := some "No input channel found"
      emitted := []
      closed := false
      errorsReported := [] }
  | some ins =>
    match o.op with
    | none =>
      { execError := none
        emitted := [o.state]
        closed := true
        errorsReported := [] }
    | some f =>
      let r := BinaryOperator.doOp f o.state ins fuel
      { execError := none
        emitted := [r.1]
        closed := true
        errorsReported := r.2 }

/-- The accumulator states after each processed item, in order
(specification-side description used to characterise `doOp`). -/
def statesAfter (f : BinOperation) : Value → List Value → List Value
  | _, [] => []
  | s, x :: xs => f s x :: statesAfter f (f s x) xs

/-- The message of a state that is a `StreamError`, if any. -/
def errOf : Value → Option String
  | Value.verr m => some m
  | _ => none

theorem doOp_no_cancel (f : BinOperation) (s : Value) (xs : List Value) :
    BinaryOperator.doOp f s xs none =
      (xs.foldl f s, (statesAfter f s xs).filterMap errOf) := by
  induction xs generalizing s with
  | nil => rfl
  | cons x xs ih =>
    simp only [BinaryOperator.doOp, statesAfter, List.foldl, decr,
      List.filterMap, ih (f s x)]
    cases h : f s x <;> simp [errOf]

theorem doOp_cancel_state (f : BinOperation) (s : Value) (xs : List Value)
    (k : Nat) :
    (BinaryOperator.doOp f s xs (some k)).1 = (xs.take k).foldl f s := by
  induction xs generalizing s k with
  | nil => simp [BinaryOperator.doOp]
  | cons x xs ih =>
    cases k with
    | zero => simp [BinaryOperator.doOp]
    | succ n =>
      have hd : decr (some (n + 1)) = some n := rfl
      simp only [BinaryOperator.doOp, hd, List.take, List.foldl]
      cases h : f s x <;> simp [ih]

/-- Go struct `StreamOperator` (the stream-expand operator): input and
output channels; `New` allocates the output with capacity 1024. -/
structure StreamOperator where
  input : Option (List Value)
  output : Option Chan

/-- `StreamOperator.New` (stream-expand operator constructor). -/
def StreamOperator.New : StreamOperator :=
  { input := none
    output := some { capacity := 1024 } }

/-- `StreamOperator.SetInput`. -/
def StreamOperator.SetInput (o : StreamOperator) (xs : List Value) :
    StreamOperator :=
  { o with input := some xs }

/-- The per-item switch on `reflect.TypeOf(item).Kind()` inside
`StreamOperator.Exec`: the elements an array/slice item contributes (its
elements in index order), a map item contributes (`tuple.KV{key, value}`
per entry in iteration order), and any other item contributes (itself).
A nil item would make `itemType.Kind()` panic in Go; `Value.vnil` here
stands for a typed nil interface value, which reaches the default case. -/
def StreamOperator.elemsOf : Value → List Value
  | Value.varr xs => xs
  | Value.vmap es => es.map fun e => Value.vkv e.1 e.2
  | v => [v]

/-- The inner emission loop of `StreamOperator.Exec`: each element is sent
through a select against `exeCtx.Done()`, so a send only happens while the
cancellation budget lasts.  Returns the sent elements, the remaining
budget, and whether `Done` was observed (making the goroutine return). -/
def StreamOperator.sendSeq :
    List Value → Option Nat → List Value × Option Nat × Bool
  | [], fuel => ([], fuel, false)
  | _ :: _, some 0 => ([], some 0, true)
  | x :: xs, fuel =>
    let r := StreamOperator.sendSeq xs (decr fuel)
    (x :: r.1, r.2)

/-- The outer receive loop of `StreamOperator.Exec`'s goroutine: receive
an item (or stop on input-closed / `Done`), unpack it with the kind
switch, emit the unpacked elements, and continue unless a send observed
`Done`.  Returns everything sent on the output channel. -/
def StreamOperator.ExecLoop : List Value → Option Nat → List Value
  | [], _ => []
  | _ :: _, some 0 => []
  | i :: ins, fuel =>
    let r := StreamOperator.sendSeq (StreamOperator.elemsOf i) fuel
    if r.2.2 then r.1 else r.1 ++ StreamOperator.ExecLoop ins r.2.1

/-- `StreamOperator.Exec`: fails synchronously when no input channel is
set (no goroutine starts, nothing is emitted, output stays open);
otherwise the goroutine runs the receive loop and its deferred function
closes the output channel on every exit path. -/
def StreamOperator.Exec (o : StreamOperator) (fuel : Option Nat) :
    ExecOutcome :=
  match o.input with
  | none =>
    { execError := some "No input channel found"
      emitted := []
      closed := false
      errorsReported := [] }
  | some ins =>
    { execError := none
      emitted := StreamOperator.ExecLoop ins fuel
      closed := true
      errorsReported := [] }

/-- Modelled from the spec: the specification's description of stream
expansion, used as the refinement counterpart of the executable loop —
"When an item's runtime shape is an ordered sequence (array/slice), emit
each element downstream in index order. When it is an associative
mapping, emit {Key, Value} tuples in iteration order. Otherwise, pass the
item through unchanged." -/
def expandSpec : Value → List Value
  | Value.varr xs => xs
  | Value.vmap es => es.map fun e => Value.vkv e.1 e.2
  | v => [v]

/-- Whether a value's runtime kind is neither array/slice nor map, i.e. it
falls into the default branch of the expand switch. -/
def Value.isScalar : Value → Bool
  | Value.varr _ => false
  | Value.vmap _ => false
  | _ => true

theorem sendSeq_no_cancel (xs : List Value) :
    StreamOperator.sendSeq xs none = (xs, none, false) := by
  induction xs with
  | nil => rfl
  | cons x xs ih => simp [StreamOperator.sendSeq, decr, ih]

theorem execLoop_no_cancel (ins : List Value) :
    StreamOperator.ExecLoop ins none = ins.flatMap expandSpec := by
  induction ins with
  | nil => rfl
  | cons i ins ih =>
    have h : StreamOperator.elemsOf i = expandSpec i := by
      cases i <;> rfl
    simp [StreamOperator.ExecLoop, sendSeq_no_cancel, h, ih]

/-- Result of a collector's `Open`: the errors sent on the returned
channel and whether that channel was closed. -/
structure OpenResult where
  errorsSent : List String
  closed : Bool
  deriving Repr, DecidableEq

/-- The receive loop of `NullCollector.Open`'s goroutine: discard items
until the input channel closes or `ctx.Done()` fires; returns `true` when
the goroutine has returned (so the deferred `close(result)` ran). -/
def NullCollector.drainLoop : List Value → Option Nat → Bool
  | [], _ => true
  | _ :: _, some 0 => true
  | _ :: xs, fuel => NullCollector.drainLoop xs (decr fuel)

/-- `NullCollector.Open`: the goroutine never sends on the result
channel; its deferred function closes the channel when the loop exits
(input closed or context done). -/
def NullCollector.Open (input : List Value) (cancelAt : Option Nat) :
    OpenResult :=
  { errorsSent := []
    closed := NullCollector.drainLoop input cancelAt }

theorem drainLoop_terminates (xs : List Value) (fuel : Option Nat) :
    NullCollector.drainLoop xs fuel = true := by
  induction xs generalizing fuel with
  | nil => rfl
  | cons x xs ih =>
    match fuel with
    | none => exact ih none
    | some 0 => rfl
    | some (n + 1) => exact ih (some n)

/-- Modelled from the spec: Go `strings.Split` with a one-character
separator (the Go standard library is outside this repository), at the
level of character lists: split into the maximal groups between
occurrences of `sep`. -/
def splitOnChar (sep : Char) (cs : List Char) : List (List Char) :=
  match cs with
  | [] => [[]]
  | c :: rest =>
    let r := splitOnChar sep rest
    if c = sep then [] :: r
    else
      match r with
      | [] => [[c]]
      | g :: gs => (c :: g) :: gs

/-- The numeric value of a string of decimal digits. -/
def digitsVal (cs : List Char) : Nat :=
  cs.foldl (fun a c => a * 10 + (c.toNat - 48)) 0

/-- Modelled from the spec: `strconv.ParseFloat` on the well-formed
non-negative decimal literals of the batch/sum example (the Go standard
library is outside this repository).  Floats are modelled exactly as
rationals: the parsed value of `"d.f"` is `d + f / 10 ^ |f|`. -/
def parseFloatChars (cs : List Char) : ℚ :=
  match splitOnChar '.' cs with
  | [i] => (digitsVal i : ℚ)
  | [i, f] => (digitsVal i : ℚ) + (digitsVal f : ℚ) / (10 ^ f.length : ℚ)
  | _ => 0

/-- The nine CSV rows fed to the stream in examples/batch/sum/sum.go. -/
def csvRows : List String :=
  [ "10452,17,12,0.71,5,0.29,0,0,17,100"
  , "10453,14,7,0.5,7,0.5,0,0,14,100"
  , "10454,18,8,0.44,10,0.56,0,0,18,100"
  , "10455,27,17,0.63,10,0.37,0,0,27,100"
  , "10456,5,3,0.6,2,0.4,0,0,5,100"
  , "10458,52,25,0.48,27,0.52,0,0,52,100"
  , "10459,7,5,0.71,2,0.29,0,0,7,100"
  , "10460,27,20,0.74,7,0.26,0,0,27,100"
  , "10461,49,26,0.53,23,0.47,0,0,49,100" ]

/-- Modelled from the spec: the Map, Batch and Sum stages of the
batch/sum example pipeline (the unary operator, the batch operator and
`SumFunc` are not under src).  Per the spec, `Map` applies its function
to each item in order, `Batch` buffers the whole upstream into one slice,
and `Sum` performs the numeric reduction of that slice; the first map
splits each row on "," and the second parses field index 3.  The result
is the single value the sink receives. -/
def sumPipeline (rows : List String) : ℚ :=
  let cols := rows.map fun r => splitOnChar ',' r.data
  let ratios := cols.map fun d => parseFloatChars (d.getD 3 [])
  ratios.foldl (fun a b => a + b) 0

theorem sumPipeline_csv_eq : sumPipeline csvRows = 267 / 50 := by
  have hfields :
      csvRows.map (fun r => (splitOnChar ',' r.data).getD 3 []) =
        [ "0.71".data, "0.5".data, "0.44".data, "0.63".data, "0.6".data
        , "0.48".data, "0.71".data, "0.74".data, "0.53".data ] := rfl
  have hpipe :
      sumPipeline csvRows =
        ((csvRows.map fun r => (splitOnChar ',' r.data).getD 3 []).map
            parseFloatChars).foldl (fun a b => a + b) 0 := by
    simp [sumPipeline, List.map_map]
    rfl
  have q1 : parseFloatChars "0.71".data = 71 / 100 := by
    have h : parseFloatChars "0.71".data
        = (digitsVal "0".data : ℚ)
          + (digitsVal "71".data : ℚ) / (10 ^ ("71".data.length) : ℚ) := rfl
    rw [h, show digitsVal "0".data = 0 by decide,
      show digitsVal "71".data = 71 by decide,
      show ("71".data.length) = 2 by decide]
    norm_num
  have q2 : parseFloatChars "0.5".data = 5 / 10 := by
    have h : parseFloatChars "0.5".data
        = (digitsVal "0".data : ℚ)
          + (digitsVal "5".data : ℚ) / (10 ^ ("5".data.length) : ℚ) := rfl
    rw [h, show digitsVal "0".data = 0 by decide,
      show digitsVal "5".data = 5 by decide,
      show ("5".data.length) = 1 by decide]
    norm_num
  have q3 : parseFloatChars "0.44".data = 44 / 100 := by
    have h : parseFloatChars "0.44".data
        = (digitsVal "0".data : ℚ)
          + (digitsVal "44".data : ℚ) / (10 ^ ("44".data.length) : ℚ) := rfl
    rw [h, show digitsVal "0".data = 0 by decide,
      show digitsVal "44".data = 44 by decide,
      show ("44".data.length) = 2 by decide]
    norm_num
  have q4 : parseFloatChars "0.63".data = 63 / 100 := by
    have h : parseFloatChars "0.63".data
        = (digitsVal "0".data : ℚ)
          + (digitsVal "63".data : ℚ) / (10 ^ ("63".data.length) : ℚ) := rfl
    rw [h, show digitsVal "0".data = 0 by decide,
      show digitsVal "63".data = 63 by decide,
      show ("63".data.length) = 2 by decide]
    norm_num
  have q5 : parseFloatChars "0.6".data = 6 / 10 := by
    have h : parseFloatChars "0.6".data
        = (digitsVal "0".data : ℚ)
          + (digitsVal "6".data : ℚ) / (10 ^ ("6".data.length) : ℚ) := rfl
    rw [h, show digitsVal "0".data = 0 by decide,
      show digitsVal "6".data = 6 by decide,
      show ("6".data.length) = 1 by decide]
    norm_num
  have q6 : parseFloatChars "0.48".data = 48 / 100 := by
    have h : parseFloatChars "0.48".data
        = (digitsVal "0".data : ℚ)
          + (digitsVal "48".data : ℚ) / (10 ^ ("48".data.length) : ℚ) := rfl
    rw [h, show digitsVal "0".data = 0 by decide,
      show digitsVal "48".data = 48 by decide,
      show ("48".data.length) = 2 by decide]
    norm_num
  have q7 : parseFloatChars "0.74".data = 74 / 100 := by
    have h : parseFloatChars "0.74".data
        = (digitsVal "0".data : ℚ)
          + (digitsVal "74".data : ℚ) / (10 ^ ("74".data.length) : ℚ) := rfl
    rw [h, show digitsVal "0".data = 0 by decide,
      show digitsVal "74".data = 74 by decide,
      show ("74".data.length) = 2 by decide]
    norm_num
  have q8 : parseFloatChars "0.53".data = 53 / 100 := by
    have h : parseFloatChars "0.53".data
        = (digitsVal "0".data : ℚ)
          + (digitsVal "53".data : ℚ) / (10 ^ ("53".data.length) : ℚ) := rfl
    rw [h, show digitsVal "0".data = 0 by decide,
      show digitsVal "53".data = 53 by decide,
      show ("53".data.length) = 2 by decide]
    norm_num
  rw [hpipe, hfields]
  simp only [List.map, List.foldl, q1, q2, q3, q4, q5, q6, q7, q8]
  norm_num

/-- The binary operation of the Reduce tests: integer addition on the
accumulator and the item (a Go type assertion failure is out of scope for
these runs, which only carry integers). -/
def addOp : BinOperation := fun s x =>
  match s, x with
  | Value.vint a, Value.vint b => Value.vint (a + b)
  | _, _ => Value.vnil

/-- The final accumulator state of a completed (uncancelled) binary
operator run: the left fold of the operation over the input, or the
initial state when no operation was set. -/
def BinaryOperator.finalState (op : Option BinOperation) (s : Value)
    (xs : List Value) : Value :=
  match op with
  | none => s
  | some f => xs.foldl f s

/-- Modelled from the spec: the Stream wiring of a Reduce stage and the
slice collector, which are not under src — `New(src).Reduce(s0, f)` feeds
the source's items in order to the binary operator's input channel, and
the sink collects every item the operator emits, in order. -/
def streamReduce (f : BinOperation) (s0 : Value) (source : List Value) :
    List Value :=
  ((((BinaryOperator.New.SetOperation f).SetInitialState s0).SetInput
      source).Exec none).emitted

/-- Claim C1 (counterexample): the claim "the final state is not
delivered if ctx is done before input drains" is false.  Concretely, with
addition over initial state 0 and input 1, 2, 3, a context observed done
after only one of the three items, the operator still delivers the
accumulator (value 1) on the output channel and closes it: the deferred
send in `Exec` runs on every exit path of `doOp`, cancellation included. -/
theorem binary_cancel_no_shortcircuit_cex :
    ((((BinaryOperator.New.SetOperation addOp).SetInitialState
            (Value.vint 0)).SetInput
          [Value.vint 1, Value.vint 2, Value.vint 3]).Exec
        (some 1)).emitted = [Value.vint 1] ∧
      ((((BinaryOperator.New.SetOperation addOp).SetInitialState
              (Value.vint 0)).SetInput
            [Value.vint 1, Value.vint 2, Value.vint 3]).Exec
          (some 1)).emitted ≠ [] ∧
      1 < 3 := by
  have hv :
      ((((BinaryOperator.New.SetOperation addOp).SetInitialState
              (Value.vint 0)).SetInput
            [Value.vint 1, Value.vint 2, Value.vint 3]).Exec
          (some 1)).emitted = [Value.vint 1] := rfl
  refine ⟨hv, ?_, by decide⟩
  rw [hv]
  exact fun h => List.noConfusion h

/-- Claim C1 (amended): if ctx is done after `k` of the `n > k` input
items, the binary operator still delivers exactly one item — the
accumulator state reached at cancellation, i.e. the fold of the first `k`
items — on its output channel, and closes the channel: emission is not
short-circuited by cancellation. -/
theorem binary_cancel_still_emits (f : BinOperation) (s0 : Value)
    (xs : List Value) (k : Nat) (h : k < xs.length) :
    ((((BinaryOperator.New.SetOperation f).SetInitialState s0).SetInput
          xs).Exec (some k)).emitted = [(xs.take k).foldl f s0] ∧
      ((((BinaryOperator.New.SetOperation f).SetInitialState s0).SetInput
            xs).Exec (some k)).closed = true := by
  constructor
  · simp only [BinaryOperator.Exec, BinaryOperator.SetInput,
      BinaryOperator.SetInitialState, BinaryOperator.SetOperation,
      doOp_cancel_state]
  · rfl

theorem binary_cancel_still_emits_witness :
    ((((BinaryOperator.New.SetOperation addOp).SetInitialState
            (Value.vint 0)).SetInput
          [Value.vint 1, Value.vint 2, Value.vint 3]).Exec
        (some 2)).emitted =
        [([Value.vint 1, Value.vint 2, Value.vint 3].take 2).foldl addOp
          (Value.vint 0)] ∧
      ((((BinaryOperator.New.SetOperation addOp).SetInitialState
              (Value.vint 0)).SetInput
            [Value.vint 1, Value.vint 2, Value.vint 3]).Exec
          (some 2)).closed = true :=
  binary_cancel_still_emits addOp (Value.vint 0)
    [Value.vint 1, Value.vint 2, Value.vint 3] 2 (by decide)

/-- A binary operation that always returns the untyped nil. -/
def nilOp : BinOperation := fun _ _ => Value.vnil

/-- A binary operation that always returns a `StreamError`. -/
def errOp : BinOperation := fun _ _ => Value.verr "boom"

/-- Claim C2 (counterexample): the claim "a nil result is ignored (state
unchanged); a StreamError is reported and state is unchanged" is false.
With initial state 5 and a single input item 1: an operation returning
nil leaves the accumulator nil — not 5 — because `doOp` assigns
`o.state = o.op.Apply(...)` before the nil check; and an operation
returning a `StreamError` is reported but likewise leaves the accumulator
holding that error value instead of 5. -/
theorem binary_result_overwrites_state_cex :
    nilOp (Value.vint 5) (Value.vint 1) = Value.vnil ∧
      (BinaryOperator.doOp nilOp (Value.vint 5) [Value.vint 1] none).1 =
        Value.vnil ∧
      (BinaryOperator.doOp nilOp (Value.vint 5) [Value.vint 1] none).1 ≠
        Value.vint 5 ∧
      errOp (Value.vint 5) (Value.vint 1) = Value.verr "boom" ∧
      (BinaryOperator.doOp errOp (Value.vint 5) [Value.vint 1] none).1 =
        Value.verr "boom" ∧
      (BinaryOperator.doOp errOp (Value.vint 5) [Value.vint 1] none).1 ≠
        Value.vint 5 ∧
      (BinaryOperator.doOp errOp (Value.vint 5) [Value.vint 1] none).2 =
        ["boom"] := by
  refine ⟨rfl, rfl, ?_, rfl, rfl, ?_, rfl⟩
  · rw [show (BinaryOperator.doOp nilOp (Value.vint 5) [Value.vint 1]
        none).1 = Value.vnil from rfl]
    exact fun h => Value.noConfusion h
  · rw [show (BinaryOperator.doOp errOp (Value.vint 5) [Value.vint 1]
        none).1 = Value.verr "boom" from rfl]
    exact fun h => Value.noConfusion h

/-- Claim C2 (amended): the result of the binary operation always
replaces the accumulator — after each item the state is the operation's
return value, so a completed run ends in the left fold of the operation,
nil and StreamError results included; and the errors reported through the
err fn are exactly the `StreamError` values among the successive states,
in input order. -/
theorem binary_result_always_assigned (f : BinOperation) (s : Value)
    (xs : List Value) :
    (BinaryOperator.doOp f s xs none).1 = xs.foldl f s ∧
      (BinaryOperator.doOp f s xs none).2 =
        (statesAfter f s xs).filterMap errOf := by
  rw [doOp_no_cancel]
  exact ⟨rfl, rfl⟩

/-- Claim C4 (confirmed): for every run of the binary operator whose
input channel drains (the context is never observed done), the operator
emits exactly one item on its output channel — the final accumulator
state, the fold of the operation over the whole input once the input has
closed — and then closes the output channel. -/
theorem binary_emits_exactly_final_state (o : BinaryOperator)
    (xs : List Value) (h : o.input = some xs) :
    (o.Exec none).emitted =
        [BinaryOperator.finalState o.op o.state xs] ∧
      (o.Exec none).emitted.length = 1 ∧
      (o.Exec none).closed = true := by
  obtain ⟨op, st, cc, inp, outp⟩ := o
  change inp = some xs at h
  subst h
  cases op with
  | none => exact ⟨rfl, rfl, rfl⟩
  | some f =>
    refine ⟨?_, rfl, rfl⟩
    show [(BinaryOperator.doOp f st xs none).1] =
      [BinaryOperator.finalState (some f) st xs]
    rw [doOp_no_cancel]
    rfl

theorem binary_emits_exactly_final_state_witness :
    ((((BinaryOperator.New.SetOperation addOp).SetInitialState
            (Value.vint 0)).SetInput
          [Value.vint 1, Value.vint 2]).Exec none).emitted =
        [Value.vint 3] ∧
      ((((BinaryOperator.New.SetOperation addOp).SetInitialState
              (Value.vint 0)).SetInput
            [Value.vint 1, Value.vint 2]).Exec none).emitted.length = 1 ∧
      ((((BinaryOperator.New.SetOperation addOp).SetInitialState
              (Value.vint 0)).SetInput
            [Value.vint 1, Value.vint 2]).Exec none).closed = true := by
  have h := binary_emits_exactly_final_state
    (((BinaryOperator.New.SetOperation addOp).SetInitialState
        (Value.vint 0)).SetInput [Value.vint 1, Value.vint 2])
    [Value.vint 1, Value.vint 2] rfl
  exact ⟨h.1.trans rfl, h.2.1, h.2.2⟩

/-- Claim C5 (confirmed): a Reduce stage over a finite source delivers
the left fold of its operation as the single sink value — for every
operation (associative ones in particular), initial state and source,
the sink receives exactly `[fold]`; concretely, source 1, 2, 3, 4, 5 with
initial state 0 and integer addition yields exactly the one value 15. -/
theorem stream_reduce_delivers_foldl :
    (∀ (f : BinOperation) (s0 : Value) (xs : List Value),
        streamReduce f s0 xs = [xs.foldl f s0]) ∧
      streamReduce addOp (Value.vint 0)
          [Value.vint 1, Value.vint 2, Value.vint 3, Value.vint 4,
            Value.vint 5] =
        [Value.vint 15] := by
  have hall : ∀ (f : BinOperation) (s0 : Value) (xs : List Value),
      streamReduce f s0 xs = [xs.foldl f s0] := by
    intro f s0 xs
    rw [streamReduce]
    show [(BinaryOperator.doOp f s0 xs none).1] = [xs.foldl f s0]
    rw [doOp_no_cancel]
  exact ⟨hall, by rw [hall]; rfl⟩

/-- Claim C6 (confirmed): an uncancelled run of the stream-expand
operator emits, for each input item in turn, exactly its expansion —
each element individually in index order for an array/slice, a
`{Key, Value}` tuple per entry in iteration order for a map, and the
item itself unchanged for every other runtime shape. -/
theorem stream_expand_unpacks_items :
    (∀ ins : List Value,
        ((StreamOperator.New.SetInput ins).Exec none).emitted =
          ins.flatMap expandSpec) ∧
      (∀ xs : List Value, expandSpec (Value.varr xs) = xs) ∧
      (∀ es : List (Value × Value),
        expandSpec (Value.vmap es) =
          es.map fun e => Value.vkv e.1 e.2) ∧
      (∀ v : Value, v.isScalar = true → expandSpec v = [v]) := by
  refine ⟨?_, fun xs => rfl, fun es => rfl, ?_⟩
  · intro ins
    show StreamOperator.ExecLoop ins none = ins.flatMap expandSpec
    exact execLoop_no_cancel ins
  · intro v hv
    cases v <;> first
      | rfl
      | exact absurd hv (by exact fun h => Bool.noConfusion h)

theorem stream_expand_unpacks_items_witness :
    ((StreamOperator.New.SetInput
          [Value.varr [Value.vint 1, Value.vint 2],
            Value.vmap [(Value.vstr "k", Value.vint 9)],
            Value.vint 7]).Exec none).emitted =
        [Value.vint 1, Value.vint 2,
          Value.vkv (Value.vstr "k") (Value.vint 9), Value.vint 7] ∧
      expandSpec (Value.vint 7) = [Value.vint 7] :=
  ⟨(stream_expand_unpacks_items.1
      [Value.varr [Value.vint 1, Value.vint 2],
        Value.vmap [(Value.vstr "k", Value.vint 9)],
        Value.vint 7]).trans rfl,
    stream_expand_unpacks_items.2.2.2 (Value.vint 7) rfl⟩

/-- Claim C7 (confirmed): the null collector satisfies the Collector
contract — for every input sequence and every cancellation schedule,
the error channel returned by `Open` carries no error at all (hence at
most one) and is closed once draining completes, whether the input
channel closed or the context was done first. -/
theorem null_collector_single_shot (input : List Value)
    (cancelAt : Option Nat) :
    (NullCollector.Open input cancelAt).errorsSent = [] ∧
      (NullCollector.Open input cancelAt).errorsSent.length ≤ 1 ∧
      (NullCollector.Open input cancelAt).closed = true := by
  refine ⟨rfl, by simp [NullCollector.Open], ?_⟩
  show NullCollector.drainLoop input cancelAt = true
  exact drainLoop_terminates input cancelAt

/-- Claim C8 (confirmed): immediately after construction with `New`, the
stream-expand operator and the binary operator both have an allocated
output channel, and its capacity is exactly 1024. -/
theorem operator_output_capacity_1024 :
    StreamOperator.New.output.isSome = true ∧
      BinaryOperator.New.output.isSome = true ∧
      StreamOperator.New.output = some { capacity := 1024 } ∧
      BinaryOperator.New.output = some { capacity := 1024 } :=
  ⟨rfl, rfl, rfl, rfl⟩

/-- Claim C9 (confirmed): the binary operator's concurrency degree is at
least 1 after every operation — `New` initialises it to exactly 1,
`SetConcurrency c` yields exactly `c` when `c ≥ 1` and clamps every
other argument (zero and negatives) to 1, and the remaining setters do
not touch the concurrency field. -/
theorem binary_concurrency_at_least_one :
    BinaryOperator.New.concurrency = 1 ∧
      (∀ (o : BinaryOperator) (c : Int),
        1 ≤ (o.SetConcurrency c).concurrency) ∧
      (∀ (o : BinaryOperator) (c : Int), c < 1 →
        (o.SetConcurrency c).concurrency = 1) ∧
      (∀ (o : BinaryOperator) (c : Int), 1 ≤ c →
        (o.SetConcurrency c).concurrency = c) ∧
      (∀ (o : BinaryOperator) (f : BinOperation),
        (o.SetOperation f).concurrency = o.concurrency) ∧
      (∀ (o : BinaryOperator) (v : Value),
        (o.SetInitialState v).concurrency = o.concurrency) ∧
      (∀ (o : BinaryOperator) (xs : List Value),
        (o.SetInput xs).concurrency = o.concurrency) := by
  refine ⟨rfl, ?_, ?_, ?_, fun o f => rfl, fun o v => rfl, fun o xs => rfl⟩
  · intro o c
    show 1 ≤ if c < 1 then 1 else c
    split
    · exact le_refl 1
    · omega
  · intro o c hc
    show (if c < 1 then 1 else c) = 1
    simp [hc]
  · intro o c hc
    show (if c < 1 then 1 else c) = c
    have : ¬ c < 1 := not_lt.mpr hc
    simp [this]

theorem binary_concurrency_at_least_one_witness :
    (BinaryOperator.New.SetConcurrency (-3)).concurrency = 1 ∧
      (BinaryOperator.New.SetConcurrency 0).concurrency = 1 ∧
      (BinaryOperator.New.SetConcurrency 4).concurrency = 4 ∧
      1 ≤ (BinaryOperator.New.SetConcurrency (-3)).concurrency :=
  ⟨binary_concurrency_at_least_one.2.2.1 BinaryOperator.New (-3)
      (by decide),
    binary_concurrency_at_least_one.2.2.1 BinaryOperator.New 0 (by decide),
    binary_concurrency_at_least_one.2.2.2.1 BinaryOperator.New 4
      (by decide),
    binary_concurrency_at_least_one.2.1 BinaryOperator.New (-3)⟩

/-- Claim C10 (confirmed): for both the stream-expand operator and the
binary operator, calling `Exec` while no input channel has been set
returns the error "No input channel found" synchronously; no goroutine
is started, so nothing is ever emitted on the output channel and the
output channel is not closed. -/
theorem exec_without_input_fails (so : StreamOperator)
    (bo : BinaryOperator) (fuel gb : Option Nat)
    (hs : so.input = none) (hb : bo.input = none) :
    (so.Exec fuel).execError = some "No input channel found" ∧
      (so.Exec fuel).emitted = [] ∧
      (so.Exec fuel).closed = false ∧
      (bo.Exec gb).execError = some "No input channel found" ∧
      (bo.Exec gb).emitted = [] ∧
      (bo.Exec gb).closed = false := by
  obtain ⟨sin, sout⟩ := so
  obtain ⟨op, st, cc, bin, bout⟩ := bo
  change sin = none at hs
  change bin = none at hb
  subst hs
  subst hb
  exact ⟨rfl, rfl, rfl, rfl, rfl, rfl⟩

theorem exec_without_input_fails_witness :
    (StreamOperator.New.Exec none).execError =
        some "No input channel found" ∧
      (StreamOperator.New.Exec none).emitted = [] ∧
      (StreamOperator.New.Exec none).closed = false ∧
      (BinaryOperator.New.Exec none).execError =
        some "No input channel found" ∧
      (BinaryOperator.New.Exec none).emitted = [] ∧
      (BinaryOperator.New.Exec none).closed = false :=
  exec_without_input_fails StreamOperator.New BinaryOperator.New none none
    rfl rfl

/-- Claim C3 (counterexample): the claim that the batch/sum example's
sink receives a float equal to 5.04 is false — the sum of the parsed
ratio fields (index 3) of the nine CSV rows is 5.34 (267/50 in exact
decimal arithmetic), not 5.04 (126/25). -/
theorem csv_sum_not_5_04 :
    sumPipeline csvRows = 267 / 50 ∧ sumPipeline csvRows ≠ 126 / 25 := by
  refine ⟨sumPipeline_csv_eq, ?_⟩
  rw [sumPipeline_csv_eq]
  norm_num

/-- Claim C3 (amended): for the concrete pipeline that streams the 9
given CSV rows through Map(split ","), then Map(parseFloat of field
index 3), then Batch().Sum(), the sink receives exactly one float value
equal to 5.34 — the sum of the parsed ratio fields of the 9 rows —
modelled in exact decimal arithmetic as the rational 267/50. -/
theorem csv_sum_is_5_34 : sumPipeline csvRows = 267 / 50 :=
  sumPipeline_csv_eq
